import Mathlib

/-
Verification of the notion-to-markdown renderer.

This file gives a shallow embedding, in Lean, of the parts of the Go
program that convert Notion pages and blocks into Markdown with YAML
front matter: the Go string primitives the renderer uses, the URL
handling, the rich-text formatter, the file-cache filename logic, the
per-block-kind formatters, the recursive block renderer, and the
metadata / path builder.  Each definition mirrors one Go function of the
repository (renderer.go, block_types.go, file_cache.go, config.go); the
doc comment of a definition names its Go counterpart.  External standard
library functions (net/url parsing, crypto/sha256, yaml marshalling) are
modelled explicitly or passed as parameters, as noted at each site.

Theorems at the end of the file settle the behavioural claims about the
program.
-/

namespace NotionMD

/-! ### Go string primitives

The renderer uses a small set of functions from the Go standard library
package strings.  They are modelled here on the character lists
underlying Lean strings.  Go indexes strings by bytes; the inputs the
renderer handles are treated as sequences of characters, which agrees
with Go on ASCII data.
-/

/-- Go strings.ToLower (ASCII range, which is all the renderer compares). -/
def goToLower (s : String) : String := ⟨s.data.map Char.toLower⟩

/-- Go strings.Contains: substring containment. -/
def goContains (s sub : String) : Bool := decide (List.IsInfix sub.data s.data)

/-- Go strings.HasPrefix. -/
def goStartsWith (s pre : String) : Bool := pre.data.isPrefixOf s.data

/-- Go strings.HasSuffix. -/
def goEndsWith (s suf : String) : Bool := suf.data.isSuffixOf s.data

/-- Go strings.TrimPrefix. -/
def goTrimLeading (s pre : String) : String :=
  if goStartsWith s pre then ⟨s.data.drop pre.data.length⟩ else s

/-- Go strings.TrimSuffix. -/
def goTrimTrailing (s suf : String) : String :=
  if goEndsWith s suf then ⟨s.data.take (s.data.length - suf.data.length)⟩ else s

/-- Worker for Go strings.Split with a non-empty separator: repeatedly cut
at the leftmost occurrence of the separator.  The fuel argument, set to
the length of the input by the caller, makes the recursion structural;
it never runs out because every step consumes at least one character. -/
def splitSubGo (s0 : Char) (srest : List Char) : Nat → List Char → List Char → List (List Char)
  | _, [], acc => [acc.reverse]
  | 0, l, acc => [acc.reverse ++ l]
  | fuel + 1, c :: rest, acc =>
    if (s0 :: srest).isPrefixOf (c :: rest) then
      acc.reverse :: splitSubGo s0 srest fuel (rest.drop srest.length) []
    else
      splitSubGo s0 srest fuel rest (c :: acc)

/-- Go strings.Split for a (non-empty, possibly multi-character) separator.
The renderer never calls Split with an empty separator, and this model
returns the string unsplit in that case. -/
def goSplit (s sep : String) : List String :=
  match sep.data with
  | [] => [s]
  | s0 :: srest => (splitSubGo s0 srest s.data.length s.data []).map String.mk

/-- Go strings.Split for a single-character separator (newlines, slashes,
pipes), via List.splitOn. -/
def goSplitCh (c : Char) (s : String) : List String :=
  (s.data.splitOn c).map String.mk

/-- Go strings.Join. -/
def goJoin (ls : List String) (sep : String) : String :=
  ⟨List.intercalate sep.data (ls.map String.data)⟩

/-- Drop all trailing occurrences of one character. -/
def trimTrailCh (c : Char) (l : List Char) : List Char :=
  (l.reverse.dropWhile (· == c)).reverse

/-- Go strings.TrimRight with cutset consisting of the newline character. -/
def goTrimRightNl (s : String) : String := ⟨trimTrailCh '\n' s.data⟩

/-- The whitespace class of Go unicode.IsSpace, restricted to ASCII. -/
def goIsSpace (c : Char) : Bool :=
  c == ' ' || c == '\t' || c == '\n' || c == '\x0b' || c == '\x0c' || c == '\r'

/-- Go strings.TrimSpace. -/
def goTrimSpace (s : String) : String :=
  ⟨((s.data.dropWhile goIsSpace).reverse.dropWhile goIsSpace).reverse⟩

/-- Go strings.Trim with a single-character cutset (both ends). -/
def goTrimCh (c : Char) (s : String) : String :=
  ⟨((s.data.dropWhile (· == c)).reverse.dropWhile (· == c)).reverse⟩

/-- Go strings.ReplaceAll, i.e. Join of Split, for a non-empty pattern.
The renderer never replaces an empty pattern. -/
def goReplaceAll (s old new : String) : String :=
  if old = "" then s else goJoin (goSplit s old) new

/-- Go strings.SplitN(s, sep, 2) restricted to its use site: cut at the
first occurrence of a single-character separator, returning the parts
before and after it.  The caller has already checked Contains. -/
def goSplitN2 (c : Char) (s : String) : String × String :=
  match s.data.findIdx? (· == c) with
  | some i => (⟨s.data.take i⟩, ⟨s.data.drop (i + 1)⟩)
  | none => (s, "")

/-- Go path/filepath.Ext on a slash-separated path: the suffix starting at
the final dot of the final path element, or empty if there is none. -/
def goFilepathExt (p : String) : String :=
  let seg := p.data.reverse.takeWhile (· != '/')
  match seg.findIdx? (· == '.') with
  | some i => ⟨(seg.take (i + 1)).reverse⟩
  | none => ""

/-- Go path/filepath.Base on a slash-separated path. -/
def goFilepathBase (p : String) : String :=
  if p = "" then "." else
  let l := trimTrailCh '/' p.data
  let base := l.reverse.takeWhile (· != '/')
  if base = [] then "/" else ⟨base.reverse⟩

/-- Go path/filepath.Join followed by ToSlash, restricted to the clean,
dot-free components the renderer passes: non-empty components are joined
with forward slashes. -/
def goPathJoin (parts : List String) : String :=
  goJoin (parts.filter (· ≠ "")) "/"

/-! ### URL parsing

The renderer calls net/url.Parse (Go standard library, outside this
repository) in the file cache, the link resolver and the label
shortener.  The model below covers the URL shapes those call sites
receive: an optional scheme, an optional authority introduced by a
double slash, a path, a query after the first question mark and a
fragment after the first hash sign.  Percent escapes in the path are
kept verbatim rather than decoded; none of the verified properties
depends on the decoded spelling.  The model returns none where Go
reports a parse error on such inputs: a control character in the URL, a
colon before any scheme letters, or a space in the host.
-/

/-- Result of the net/url.Parse model: the components the renderer reads. -/
structure GoURL where
  scheme : String
  host : String
  path : String
  rawQuery : String
deriving DecidableEq

/-- Scheme character classes of net/url: letters. -/
def isAlphaChar (c : Char) : Bool :=
  (65 ≤ c.toNat && c.toNat ≤ 90) || (97 ≤ c.toNat && c.toNat ≤ 122)

/-- Scheme character classes of net/url: digits. -/
def isDigitChar (c : Char) : Bool := 48 ≤ c.toNat && c.toNat ≤ 57

/-- Worker for the scheme scan of net/url.Parse: walk the input until a
colon (scheme found), an invalid character (no scheme) or the end. -/
def schemeScan (orig : List Char) : List Char → Nat → Option (String × List Char)
  | [], _ => some ("", orig)
  | c :: rest, i =>
    if isAlphaChar c then schemeScan orig rest (i + 1)
    else if isDigitChar c || c == '+' || c == '-' || c == '.' then
      if i = 0 then some ("", orig) else schemeScan orig rest (i + 1)
    else if c == ':' then
      if i = 0 then none else some (goToLower ⟨orig.take i⟩, rest)
    else some ("", orig)

/-- Model of net/url.Parse (see the section comment). -/
def urlParse (s : String) : Option GoURL :=
  if s.data.any (fun c => c.toNat < 32 || c.toNat == 127) then none else
  let noFrag := s.data.takeWhile (· != '#')
  let beforeQ := noFrag.takeWhile (· != '?')
  let rawQuery : String := ⟨(noFrag.dropWhile (· != '?')).drop 1⟩
  match schemeScan beforeQ beforeQ 0 with
  | none => none
  | some (scheme, rest) =>
    if ['/', '/'].isPrefixOf rest then
      let afterSlashes := rest.drop 2
      let authority := afterSlashes.takeWhile (· != '/')
      let path := afterSlashes.dropWhile (· != '/')
      let hostChars := (authority.reverse.takeWhile (· != '@')).reverse
      if hostChars.any (· == ' ') then none
      else some ⟨scheme, ⟨hostChars⟩, ⟨path⟩, rawQuery⟩
    else if scheme ≠ "" && ¬ ['/'].isPrefixOf rest then
      -- opaque form such as mailto:addr; Host and Path are empty
      some ⟨scheme, "", "", rawQuery⟩
    else
      some ⟨scheme, "", ⟨rest⟩, rawQuery⟩

/-! ### Rich text

Model of the notionapi rich-text span as the renderer reads it: the
plain text, the hyperlink target (empty when absent, as in Go) and the
annotation set.
-/

/-- The notionapi annotation set read by the renderer. -/
structure Annotations where
  bold : Bool
  italic : Bool
  strikethrough : Bool
  underline : Bool
  code : Bool
deriving DecidableEq

/-- A rich-text span as the renderer reads it. -/
structure RichText where
  plainText : String
  href : String
  annotations : Annotations
deriving DecidableEq

/-- Go escapeBackticks (block_types.go). -/
def escapeBackticks (s : String) : String := goReplaceAll s "`" "\\`"

/-- Go escapeMarkdown (block_types.go): backslash-escape square brackets. -/
def escapeMarkdown (s : String) : String :=
  goReplaceAll (goReplaceAll s "[" "\\[") "]" "\\]"

/-- Go richTextAnnotationsToMarkdown (block_types.go): wrap one span
according to its annotation set; the code annotation short-circuits. -/
def richTextAnnotationsToMarkdown (t : RichText) : String :=
  let txt := t.plainText
  if t.annotations.code then "`" ++ escapeBackticks txt ++ "`"
  else
    let w := txt
    let w := if t.annotations.bold then "**" ++ w ++ "**" else w
    let w := if t.annotations.italic then "*" ++ w ++ "*" else w
    let w := if t.annotations.strikethrough then "~~" ++ w ++ "~~" else w
    let w := if t.annotations.underline then "<u>" ++ w ++ "</u>" else w
    w

/-- Go slugify (renderer.go): lowercase, spaces to hyphens, keep only
lowercase letters, digits, hyphens and underscores. -/
def slugify (s : String) : String :=
  let s := goToLower s
  let s := goReplaceAll s " " "-"
  ⟨s.data.filter (fun c =>
    (97 ≤ c.toNat && c.toNat ≤ 122) || (48 ≤ c.toNat && c.toNat ≤ 57) ||
    c == '-' || c == '_')⟩

/-- Hexadecimal digit, upper or lower case, mirroring the
case-insensitive character class of the UUID regexes in
notionURLToHugoLink. -/
def isHexDigit (c : Char) : Bool :=
  isDigitChar c || (97 ≤ c.toNat && c.toNat ≤ 102) || (65 ≤ c.toNat && c.toNat ≤ 70)

/-- Whether a 36-character candidate matches the dashed UUID regex
8-4-4-4-12 of notionURLToHugoLink. -/
def dashedUuidOk (l : List Char) : Bool :=
  match l.splitOn '-' with
  | [a, b, c, d, e] =>
    a.length == 8 && b.length == 4 && c.length == 4 && d.length == 4 &&
    e.length == 12 && (a ++ b ++ c ++ d ++ e).all isHexDigit
  | _ => false

/-- The end-anchored dashed-UUID regex of notionURLToHugoLink: a match
exists exactly when the last 36 characters fit the 8-4-4-4-12 pattern,
and the match is those 36 characters. -/
def dashedUuidSuffix (l : List Char) : Option (List Char) :=
  if l.length ≥ 36 then
    let t := l.drop (l.length - 36)
    if dashedUuidOk t then some t else none
  else none

/-- The end-anchored undashed-UUID regex of notionURLToHugoLink: a match
exists exactly when the last 32 characters are hexadecimal digits. -/
def noDashUuidSuffix (l : List Char) : Option (List Char) :=
  if l.length ≥ 32 then
    let t := l.drop (l.length - 32)
    if t.all isHexDigit then some t else none
  else none

/-- The UUID extraction of notionURLToHugoLink (block_types.go): try the
dashed pattern first, then the undashed one, and strip the matched
identifier (plus a separating hyphen) off the segment to obtain the
title part. -/
def uuidFromSegment (seg : String) : Option (String × String) :=
  match dashedUuidSuffix seg.data with
  | some u =>
    let uuidStr : String := ⟨u⟩
    let t1 := goTrimTrailing seg ("-" ++ uuidStr)
    let titlePart := if t1 = seg then goTrimTrailing seg uuidStr else t1
    some (uuidStr, titlePart)
  | none =>
    match noDashUuidSuffix seg.data with
    | some u =>
      let uuidStr : String := ⟨u⟩
      some (uuidStr, goTrimTrailing (goTrimTrailing seg uuidStr) "-")
    | none => none

/-- Go notionURLToHugoLink (block_types.go): convert a Notion page URL to
a site-relative link when possible.  The resolver is optional, as the Go
function accepts a nil resolver. -/
def notionURLToHugoLink (raw : String) (resolve : Option (String → String)) : String :=
  if raw = "" then raw else
  match urlParse raw with
  | none => raw
  | some p =>
    if p.host = "" then raw else
    if ¬ goContains p.host "notion.so" then raw else
    let pathSegments := goSplitCh '/' (goTrimCh '/' p.path)
    if pathSegments = [] then raw else
    let lastSegment := pathSegments.getLastD ""
    match uuidFromSegment lastSegment with
    | none => raw
    | some (uuidStr, titlePart0) =>
      let normalizedUUID := goReplaceAll uuidStr "-" ""
      let resolved := match resolve with
        | some f => f normalizedUUID
        | none => ""
      if resolved ≠ "" then resolved else
      let titlePart := if titlePart0 = "" then lastSegment else titlePart0
      let slug := slugify (goReplaceAll titlePart "-" " ")
      let slug := if slug = "" then normalizedUUID else slug
      "/posts/" ++ slug ++ "/"

/-- Go richTextArrToMarkdown (block_types.go): render a rich-text array.
A span with a hyperlink renders as a Markdown link around its escaped,
annotation-wrapped text; otherwise a code annotation short-circuits, and
otherwise the span is wrapped according to its annotations, unescaped. -/
def richTextArrToMarkdown (arr : List RichText) (resolve : Option (String → String)) : String :=
  arr.foldl (fun result t =>
    let txt := t.plainText
    if t.href ≠ "" then
      let url := notionURLToHugoLink t.href resolve
      result ++ ("[" ++ escapeMarkdown (richTextAnnotationsToMarkdown t) ++ "](" ++ url ++ ")")
    else if t.annotations.code then
      result ++ ("`" ++ escapeBackticks txt ++ "`")
    else
      let w := txt
      let w := if t.annotations.bold then "**" ++ w ++ "**" else w
      let w := if t.annotations.italic then "*" ++ w ++ "*" else w
      let w := if t.annotations.strikethrough then "~~" ++ w ++ "~~" else w
      let w := if t.annotations.underline then "<u>" ++ w ++ "</u>" else w
      result ++ w) ""

/-! ### File cache (file_cache.go)

CacheFile performs network and file-system effects; the renderer only
observes its result, a relative path or an error.  It is therefore
passed to the renderer as a function parameter below.  The filename
logic, which the cache claims depend on, is modelled exactly.  The
SHA-256 digest comes from the Go crypto library, outside this
repository; it enters the filename only through the hex digest of the
file identifier, so it is a parameter of generateFilename and the
theorems hold for every digest function.
-/

/-- Go FileCache.extractFileIdentifier: a stable identifier with the
signing query parameters stripped. -/
def extractFileIdentifier (notionURL : String) : String :=
  match urlParse notionURL with
  | none => notionURL
  | some p =>
    if goContains p.host "amazonaws.com" then p.path
    else if goContains p.host "notion.so" then p.host ++ p.path
    else p.host ++ p.path

/-- Go FileCache.extractExtension: the extension of the URL path, with a
substring heuristic on the whole URL when the path has none. -/
def extractExtension (u : String) : String :=
  match urlParse u with
  | none => ".bin"
  | some p =>
    let ext := goFilepathExt p.path
    if ext = "" then
      if goContains u "image" then ".jpg"
      else if goContains u "video" then ".mp4"
      else if goContains u "pdf" then ".pdf"
      else ".bin"
    else ext

/-- Go FileCache.generateFilename: the first 8 characters of the hex
SHA-256 digest of the file identifier, plus the extension.  The digest
function is a parameter (see the section comment). -/
def generateFilename (sha256hex : String → String) (notionURL : String) : String :=
  let ext := extractExtension notionURL
  let fileId := extractFileIdentifier notionURL
  (⟨(sha256hex fileId).data.take 8⟩ : String) ++ ext

/-! ### Render configuration and templates (config.go) -/

/-- Go RenderConfig: the template strings for non-standard Markdown. -/
structure RenderConfig where
  mathTemplate : String
  detailsTemplate : String
  videoTemplate : String
  pdfTemplate : String
  embedTemplate : String
  calloutTemplate : String
  fileTemplate : String
deriving DecidableEq

/-- Go renderTemplate (config.go): replace each named placeholder by its
value.  The Go loop ranges over a map whose iteration order is
unspecified; the model fixes the order of the association list it is
given, which the verified properties do not depend on. -/
def renderTemplate (template : String) (data : List (String × String)) : String :=
  data.foldl (fun result kv =>
    goReplaceAll result ("\x7b\x7b." ++ kv.1 ++ "\x7d\x7d") kv.2) template

/-! ### Per-block formatters (block_types.go) -/

/-- Go dedentChildContent: strip one 4-space indent level from each line. -/
def dedentChildContent (childContent : String) : String :=
  if childContent = "" then childContent else
  goJoin ((goSplitCh '\n' childContent).map (fun l =>
    if goStartsWith l "    " then goTrimLeading l "    " else l)) "\n"

/-- Go shortenURLLabel (block_types.go): a human-readable label of at
most 40 characters for a URL. -/
def shortenURLLabel (raw : String) : String :=
  if raw = "" then "" else
  let m := 40
  let fallback : String :=
    if raw.data.length ≤ m then raw else ⟨raw.data.take (m - 3)⟩ ++ "..."
  match urlParse raw with
  | none => fallback
  | some u =>
    if u.scheme = "" then fallback else
    let filename := goFilepathBase u.path
    let fromFilename : Option String :=
      if filename ≠ "." && filename ≠ "/" && goContains filename "." then
        if filename.data.length ≤ m - 10 && u.host ≠ "" &&
            u.host.data.length + filename.data.length + 5 ≤ m then
          some (u.host ++ "/.../" ++ filename)
        else if filename.data.length ≤ m then some filename
        else
          -- here filename is longer than m, hence longer than m - 3
          let ext := goFilepathExt filename
          let nameLen := m - ext.data.length - 3
          let base : String := ⟨filename.data.take (filename.data.length - ext.data.length)⟩
          if ext.data.length ≤ 8 && 0 < ext.data.length && 0 < nameLen &&
              nameLen < base.data.length then
            some ((⟨base.data.take nameLen⟩ : String) ++ "..." ++ ext)
          else some ((⟨filename.data.take (m - 3)⟩ : String) ++ "...")
      else none
    match fromFilename with
    | some s => s
    | none =>
      if u.host ≠ "" then
        let cleanURL := u.host ++ u.path ++ (if u.rawQuery ≠ "" then "?" ++ u.rawQuery else "")
        if cleanURL.data.length ≤ m then cleanURL
        else
          let pathParts := goSplitCh '/' (goTrimCh '/' u.path)
          let headPart := pathParts.headD ""
          if pathParts ≠ [] && headPart ≠ "" &&
              (u.host ++ "/" ++ headPart).data.length ≤ m then
            u.host ++ "/" ++ headPart ++ "..."
          else if u.host.data.length ≤ m - 3 then u.host ++ "..."
          else fallback
      else fallback

/-- Go captionFirstParagraph (block_types.go): the first paragraph of the
rendered caption, trimmed. -/
def captionFirstParagraph (arr : List RichText) (resolve : Option (String → String)) : String :=
  if arr = [] then "" else
  let full := richTextArrToMarkdown arr resolve
  match goSplit full "\n\n" with
  | [] => goTrimSpace full
  | p :: _ => goTrimSpace p

/-- The getFileURL methods of the URL extractors in block_types.go:
prefer the internally hosted file URL (cacheable) over the external one. -/
def getFileURL (fileURL externalURL : Option String) : String × Bool :=
  match fileURL with
  | some u => (u, true)
  | none =>
    match externalURL with
    | some u => (u, false)
    | none => ("", false)

/-- The type of the CacheFile effect of file_cache.go as the renderer
observes it: from a remote URL and an article path, a local relative
path or an error.  It is optional, mirroring the nil check in Go. -/
def CacheFn : Type := String → String → Except String String

/-- Go processFileURLWithCache (block_types.go): extract the URL and a
label, and replace the URL by a cached local path only when the file is
internally hosted and caching succeeds; on a caching error the original
remote URL is kept. -/
def processFileURLWithCache (fileURL externalURL : Option String)
    (caption : List RichText) (cacheFile : Option CacheFn)
    (articlePath : String) : String × String :=
  let p := getFileURL fileURL externalURL
  let originalURL := p.1
  let shouldCache := p.2
  if originalURL = "" then ("", "") else
  let text := if caption ≠ [] then captionFirstParagraph caption none else ""
  let text := if text = "" then escapeMarkdown (shortenURLLabel originalURL) else text
  let url :=
    if shouldCache && articlePath ≠ "" then
      match cacheFile with
      | some cf =>
        match cf originalURL articlePath with
        | Except.ok cachedPath => cachedPath
        | Except.error _ => originalURL
      | none => originalURL
    else originalURL
  (url, text)

/-- Go tableToMarkdown, parsing step: split one pre-rendered row line
into trimmed cells. -/
def parseTableLine (ln : String) : List String :=
  let parts := if goContains ln " | " then goSplit ln " | " else goSplitCh '|' ln
  parts.map goTrimSpace

/-- Go tableToMarkdown, parsing step: the non-blank lines of the
dedented, trimmed child content, each split into cells. -/
def tableParsed (childContent : String) : List (List String) :=
  let s := goTrimSpace (dedentChildContent childContent)
  ((goSplitCh '\n' s).filter (fun ln => goTrimSpace ln ≠ "")).map parseTableLine

/-- Go tableToMarkdown, widest row: the running maximum of the cell
counts, starting from zero. -/
def tableMaxCols (parsed : List (List String)) : Nat :=
  parsed.foldl (fun mx parts => max mx parts.length) 0

/-- Go tableToMarkdown, padding step: append empty cells up to the
widest row. -/
def padRow (maxCols : Nat) (parts : List String) : List String :=
  if parts.length < maxCols then parts ++ List.replicate (maxCols - parts.length) "" else parts

/-- Go tableToMarkdown, row rendering: wrap the cells in pipe delimiters. -/
def renderTableRowLine (parts : List String) : String :=
  "| " ++ goJoin parts " | " ++ " |"

/-- Go tableToMarkdown (block_types.go): normalize the pre-rendered rows
to a common column count and insert a separator row under the header
when the table declares one. -/
def tableToMarkdown (hasColumnHeader : Bool) (childContent : String) : String :=
  if goTrimSpace (dedentChildContent childContent) = "" then "" else
  if tableParsed childContent = [] then "" else
  if hasColumnHeader ∧
      (tableParsed childContent).map (fun parts =>
        renderTableRowLine (padRow (tableMaxCols (tableParsed childContent)) parts)) ≠ [] then
    (((tableParsed childContent).map (fun parts =>
        renderTableRowLine (padRow (tableMaxCols (tableParsed childContent)) parts))).headD "")
      ++ "\n" ++
      renderTableRowLine (List.replicate (tableMaxCols (tableParsed childContent)) "---") ++
      (if ((tableParsed childContent).map (fun parts =>
            renderTableRowLine (padRow (tableMaxCols (tableParsed childContent)) parts))).length
          > 1 then
        "\n" ++ goJoin ((tableParsed childContent).map (fun parts =>
          renderTableRowLine (padRow (tableMaxCols (tableParsed childContent)) parts))).tail "\n"
      else "")
  else
    goJoin ((tableParsed childContent).map (fun parts =>
      renderTableRowLine (padRow (tableMaxCols (tableParsed childContent)) parts))) "\n"

/-! ### Blocks (the notionapi variants the renderer dispatches on) -/

/-- A Notion block as the renderer reads it: one constructor per
notionapi block type handled in block_types.go, carrying the identifier,
the has-children flag and the kind-specific payload fields the renderer
reads.  The unsupported constructor stands for every other block type
(the default case of the Go type switches). -/
inductive Block where
  | paragraph (id : String) (hasChildren : Bool) (richText : List RichText)
  | heading1 (id : String) (hasChildren : Bool) (richText : List RichText)
  | heading2 (id : String) (hasChildren : Bool) (richText : List RichText)
  | heading3 (id : String) (hasChildren : Bool) (richText : List RichText)
  | bulletedListItem (id : String) (hasChildren : Bool) (richText : List RichText)
  | numberedListItem (id : String) (hasChildren : Bool) (richText : List RichText)
  | toDo (id : String) (hasChildren : Bool) (richText : List RichText) (checked : Bool)
  | toggle (id : String) (hasChildren : Bool) (richText : List RichText)
  | equation (id : String) (hasChildren : Bool) (expression : String)
  | code (id : String) (hasChildren : Bool) (richText : List RichText) (language : String)
  | quote (id : String) (hasChildren : Bool) (richText : List RichText)
  | callout (id : String) (hasChildren : Bool) (richText : List RichText)
  | divider (id : String) (hasChildren : Bool)
  | image (id : String) (hasChildren : Bool) (fileURL externalURL : Option String)
      (caption : List RichText)
  | bookmark (id : String) (hasChildren : Bool) (url : String) (caption : List RichText)
  | embed (id : String) (hasChildren : Bool) (url : String) (caption : List RichText)
  | linkPreview (id : String) (hasChildren : Bool) (url : String)
  | file (id : String) (hasChildren : Bool) (fileURL externalURL : Option String)
      (caption : List RichText)
  | pdf (id : String) (hasChildren : Bool) (fileURL externalURL : Option String)
      (caption : List RichText)
  | video (id : String) (hasChildren : Bool) (fileURL externalURL : Option String)
      (caption : List RichText)
  | table (id : String) (hasChildren : Bool) (hasColumnHeader : Bool)
  | tableRow (id : String) (hasChildren : Bool) (cells : List (List RichText))
  | columnList (id : String) (hasChildren : Bool)
  | column (id : String) (hasChildren : Bool)
  | unsupported

/-- Go renderListItemWithChild (block_types.go). -/
def renderListItemWithChild (base childContent : String) : String :=
  if childContent = "" then base else base ++ "\n" ++ childContent

/-- Go toggleToMarkdown (block_types.go). -/
def toggleToMarkdown (richText : List RichText) (childContent : String)
    (resolve : Option (String → String)) (config : RenderConfig) : String :=
  let summary := richTextArrToMarkdown richText resolve
  if childContent = "" then "> " ++ summary else
  let childContent := dedentChildContent childContent
  renderTemplate config.detailsTemplate [("Summary", summary), ("Content", childContent)]

/-- Go calloutToMarkdown (block_types.go): the rich text, then every
child line as a blockquote continuation, with a leading blank blockquote
line unless the first non-blank child line looks like a list, table or
HTML continuation. -/
def calloutToMarkdown (richText : List RichText) (childContent : String)
    (resolve : Option (String → String)) (config : RenderConfig) : String :=
  let contentText := richTextArrToMarkdown richText resolve
  let contentText :=
    if childContent ≠ "" then
      let childContent := dedentChildContent childContent
      let lines := goSplitCh '\n' childContent
      let addSeparator :=
        match lines.find? (fun l => goTrimSpace l ≠ "") with
        | none => false
        | some l =>
          let t := goTrimSpace l
          ¬ (goStartsWith t "-" || goStartsWith t "1." || goStartsWith t "*" ||
             goStartsWith t "<" || goStartsWith t "|")
      let childLines := lines.map (fun l => if goTrimSpace l = "" then "> " else "> " ++ l)
      let childLines := if addSeparator then "> " :: childLines else childLines
      contentText ++ "\n" ++ goJoin childLines "\n"
    else contentText
  renderTemplate config.calloutTemplate [("Content", contentText)]

/-- Go columnListToMarkdown (block_types.go): split the child content on
the column-break marker and wrap the non-empty segments as HTML cells. -/
def columnListToMarkdown (childContent : String) : String :=
  if goTrimSpace childContent = "" then "" else
  let childContent := dedentChildContent childContent
  let parts := goSplit childContent "__COLUMN_BREAK__"
  let cols := (parts.map goTrimSpace).filter (fun p => p ≠ "")
  let cols := cols.map (fun p => "<td>\n\n" ++ p ++ "\n</td>")
  if cols = [] then "" else
  "<table><tr>" ++ goJoin cols "" ++ "</tr></table>"

/-- Go tableRowToMarkdown (block_types.go). -/
def tableRowToMarkdown (cells : List (List RichText))
    (resolve : Option (String → String)) : String :=
  if cells = [] then "" else
  goJoin (cells.map (fun cell => goTrimSpace (richTextArrToMarkdown cell resolve))) " | "

/-- Go imageToMarkdownWithCache (block_types.go). -/
def imageToMarkdownWithCache (fileURL externalURL : Option String)
    (caption : List RichText) (cacheFile : Option CacheFn) (articlePath : String) : String :=
  let p := processFileURLWithCache fileURL externalURL caption cacheFile articlePath
  if p.1 = "" then "" else
  "![" ++ escapeMarkdown p.2 ++ "](" ++ p.1 ++ ")"

/-- The shared body of the file, PDF and video formatters of
block_types.go: cache-aware URL extraction fed into a template. -/
def fileLikeToMarkdownWithCache (fileURL externalURL : Option String)
    (caption : List RichText) (cacheFile : Option CacheFn) (articlePath : String)
    (template : String) : String :=
  let p := processFileURLWithCache fileURL externalURL caption cacheFile articlePath
  if p.1 = "" then "" else
  renderTemplate template [("URL", p.1), ("Text", p.2)]

/-- Go renderLinkWithCaption (block_types.go). -/
def renderLinkWithCaption (url : String) (caption : List RichText) : String :=
  if caption ≠ [] then
    let text := captionFirstParagraph caption none
    if text ≠ "" then "[" ++ text ++ "](" ++ url ++ ")"
    else "[" ++ escapeMarkdown (shortenURLLabel url) ++ "](" ++ url ++ ")"
  else "[" ++ escapeMarkdown (shortenURLLabel url) ++ "](" ++ url ++ ")"

/-- Go embedToMarkdown (block_types.go). -/
def embedToMarkdown (url : String) (caption : List RichText) (config : RenderConfig) : String :=
  let text := if caption ≠ [] then captionFirstParagraph caption none else ""
  let text := if text = "" then escapeMarkdown (shortenURLLabel url) else text
  renderTemplate config.embedTemplate [("URL", url), ("Text", text)]

/-- Go blockToMarkdownWithCache (block_types.go): the per-kind dispatch.
Returns the Markdown fragment and whether the block is a list item. -/
def blockToMarkdownWithCache (block : Block) (childContent : String)
    (resolve : Option (String → String)) (cacheFile : Option CacheFn)
    (articlePath : String) (config : RenderConfig) : String × Bool :=
  match block with
  | .paragraph _ _ rt => (richTextArrToMarkdown rt resolve, false)
  | .heading1 _ _ rt => ("# " ++ richTextArrToMarkdown rt resolve, false)
  | .heading2 _ _ rt => ("## " ++ richTextArrToMarkdown rt resolve, false)
  | .heading3 _ _ rt => ("### " ++ richTextArrToMarkdown rt resolve, false)
  | .bulletedListItem _ _ rt =>
    (renderListItemWithChild ("- " ++ richTextArrToMarkdown rt resolve) childContent, true)
  | .numberedListItem _ _ rt =>
    (renderListItemWithChild ("1. " ++ richTextArrToMarkdown rt resolve) childContent, true)
  | .toDo _ _ rt checked =>
    let mark := if checked then "x" else " "
    (renderListItemWithChild ("- [" ++ mark ++ "] " ++ richTextArrToMarkdown rt resolve)
      childContent, true)
  | .toggle _ _ rt => (toggleToMarkdown rt childContent resolve config, false)
  | .equation _ _ expr =>
    (if expr ≠ "" then renderTemplate config.mathTemplate [("Expression", expr)] else "", false)
  | .code _ _ rt lang =>
    ("```" ++ lang ++ "\n" ++ richTextArrToMarkdown rt resolve ++ "\n```", false)
  | .quote _ _ rt => ("> " ++ richTextArrToMarkdown rt resolve, false)
  | .callout _ _ rt => (calloutToMarkdown rt childContent resolve config, false)
  | .divider _ _ => ("---", false)
  | .image _ _ f e cap => (imageToMarkdownWithCache f e cap cacheFile articlePath, false)
  | .bookmark _ _ url cap => (renderLinkWithCaption url cap, false)
  | .embed _ _ url cap => (embedToMarkdown url cap config, false)
  | .linkPreview _ _ url =>
    ("[" ++ escapeMarkdown (shortenURLLabel url) ++ "](" ++ url ++ ")", false)
  | .file _ _ f e cap =>
    (fileLikeToMarkdownWithCache f e cap cacheFile articlePath config.fileTemplate, false)
  | .pdf _ _ f e cap =>
    (fileLikeToMarkdownWithCache f e cap cacheFile articlePath config.pdfTemplate, false)
  | .video _ _ f e cap =>
    (fileLikeToMarkdownWithCache f e cap cacheFile articlePath config.videoTemplate, false)
  | .table _ _ hasHeader => (tableToMarkdown hasHeader childContent, false)
  | .tableRow _ _ cells => (tableRowToMarkdown cells resolve, false)
  | .columnList _ _ => (columnListToMarkdown childContent, false)
  | .column _ _ => (dedentChildContent childContent, false)
  | .unsupported => ("", false)

/-! ### The recursive renderer (renderer.go)

The Go renderer fetches the children of a block lazily through an
injected callback that can fail.  A page is therefore modelled as a tree
in which each node records, besides its block, the answer the callback
would give for its identifier: an error, or the child list.  The
callback itself is modelled as always provided, as in RenderPage.
-/

mutual
/-- A block together with the (lazily fetched) callback answer for its
children: an error message, or the child subtrees. -/
inductive BTree where
  | node (block : Block) (fetchErr : Option String) (children : BForest)
/-- A sibling list of block trees. -/
inductive BForest where
  | nil
  | cons (t : BTree) (ts : BForest)
end

/-- The sibling list as a plain list, for statements about membership. -/
def BForest.toList : BForest → List BTree
  | .nil => []
  | .cons t ts => t :: ts.toList

/-- Go getBlockIDAndHasChildren (renderer.go): the identifier and
has-children flag of the block types listed in its type switch;
PDF, link-preview and unsupported blocks fall to the default case. -/
def getBlockIDAndHasChildren (block : Block) : String × Bool :=
  match block with
  | .paragraph id hc _ => (id, hc)
  | .heading1 id hc _ => (id, hc)
  | .heading2 id hc _ => (id, hc)
  | .heading3 id hc _ => (id, hc)
  | .bulletedListItem id hc _ => (id, hc)
  | .numberedListItem id hc _ => (id, hc)
  | .toDo id hc _ _ => (id, hc)
  | .toggle id hc _ => (id, hc)
  | .equation id hc _ => (id, hc)
  | .code id hc _ _ => (id, hc)
  | .quote id hc _ => (id, hc)
  | .callout id hc _ => (id, hc)
  | .divider id hc => (id, hc)
  | .image id hc _ _ _ => (id, hc)
  | .bookmark id hc _ _ => (id, hc)
  | .embed id hc _ _ => (id, hc)
  | .file id hc _ _ _ => (id, hc)
  | .video id hc _ _ _ => (id, hc)
  | .table id hc _ => (id, hc)
  | .tableRow id hc _ => (id, hc)
  | .columnList id hc => (id, hc)
  | .column id hc => (id, hc)
  | _ => ("", false)

/-- The indentation the child loop of renderBlock applies, by parent
kind: four spaces under list items and to-do items, none otherwise. -/
def indentFor (parent : Block) : String :=
  match parent with
  | .bulletedListItem _ _ _ => "    "
  | .numberedListItem _ _ _ => "    "
  | .toDo _ _ _ _ => "    "
  | _ => ""

/-- Whether the block is a column list (the column-break special case of
the child loop). -/
def isColumnListBlock (parent : Block) : Bool :=
  match parent with
  | .columnList _ _ => true
  | _ => false

/-- The per-child line treatment of renderBlock: trim trailing newlines,
then indent every non-blank line. -/
def indentNonBlankLines (indent : String) (cstr : String) : String :=
  goJoin ((goSplitCh '\n' (goTrimRightNl cstr)).map (fun l =>
    if goTrimSpace l = "" then l else indent ++ l)) "\n"

/-- The per-render-call inputs of renderBlocksRecursive: the link
resolver, the CacheFile effect, the article path and the render
configuration. -/
structure RenderCtx where
  resolve : Option (String → String)
  cacheFile : Option CacheFn
  articlePath : String
  config : RenderConfig

mutual
/-- The inner renderBlock closure of renderBlocksRecursive
(renderer.go): fetch and assemble the children when the block declares
any, then format the block, trimming trailing newlines. -/
def renderBlock (ctx : RenderCtx) : BTree → Except String (String × Bool)
  | .node b fetchErr kids =>
    if (getBlockIDAndHasChildren b).2 then
      match fetchErr with
      | some e => Except.error e
      | none =>
        match renderChildrenLoop ctx b kids "" false with
        | Except.error e => Except.error e
        | Except.ok cc =>
          let cc := goTrimRightNl cc
          let sl := blockToMarkdownWithCache b cc ctx.resolve ctx.cacheFile ctx.articlePath ctx.config
          Except.ok (goTrimRightNl sl.1, sl.2)
    else
      let sl := blockToMarkdownWithCache b "" ctx.resolve ctx.cacheFile ctx.articlePath ctx.config
      Except.ok (goTrimRightNl sl.1, sl.2)

/-- The child-assembly loop of renderBlock: render each child, indent
its non-blank lines, and join fragments with list-aware separators,
inserting the column-break marker under a column list. -/
def renderChildrenLoop (ctx : RenderCtx) (parent : Block) :
    BForest → String → Bool → Except String String
  | .nil, childContent, _ => Except.ok childContent
  | .cons c rest, childContent, prevChildIsList =>
    match renderBlock ctx c with
    | Except.error e => Except.error e
    | Except.ok r =>
      let rendered := indentNonBlankLines (indentFor parent) r.1
      let sep := if prevChildIsList && r.2 then "\n" else "\n\n"
      let childContent := if childContent = "" then rendered else childContent ++ sep ++ rendered
      let childContent :=
        if isColumnListBlock parent then childContent ++ "\n__COLUMN_BREAK__\n" else childContent
      renderChildrenLoop ctx parent rest childContent r.2
end

/-- The top-level loop of renderBlocksRecursive (renderer.go): join the
rendered top-level fragments, separating consecutive list items by one
newline and everything else by a blank line. -/
def renderBlocksLoop (ctx : RenderCtx) :
    BForest → String → Bool → Except String String
  | .nil, markdown, _ => Except.ok markdown
  | .cons t rest, markdown, prevIsList =>
    match renderBlock ctx t with
    | Except.error e => Except.error e
    | Except.ok r =>
      let markdown :=
        if markdown ≠ "" then
          if prevIsList && r.2 then markdown ++ "\n" else markdown ++ "\n\n"
        else markdown
      renderBlocksLoop ctx rest (markdown ++ r.1) r.2

/-- Go renderBlocksRecursive (renderer.go). -/
def renderBlocksRecursive (ctx : RenderCtx) (blocks : BForest) : Except String String :=
  renderBlocksLoop ctx blocks "" false

/-! ### Metadata and front matter (renderer.go)

The property values the Go code stores in the open property map are
strings, string lists and booleans; they are modelled as a closed
variant.  Timestamps reach the map only as already-formatted ISO-8601
strings (Go time.Time.Format, outside this repository), so the page
model carries the formatted strings.  The YAML serialization
(gopkg.in/yaml.v3, outside this repository) is a parameter of
buildFrontMatter and RenderPage.
-/

/-- A value of the open property map of the metadata struct. -/
inductive MetaValue where
  | str (s : String)
  | strList (l : List String)
  | boolean (b : Bool)
deriving DecidableEq

/-- A notionapi page property as extractPropertyValue and parseMetadata
read it.  The other constructor stands for property types none of the
type switches handle. -/
inductive PageProperty where
  | title (spans : List RichText)
  | richTextProp (spans : List RichText)
  | date (start : Option String)
  | select (name : String)
  | multiSelect (names : List String)
  | status (name : String)
  | other
deriving DecidableEq

/-- A notionapi page as parseMetadata reads it: the two timestamps
(already formatted; none models the zero time) and the property map as
an association list.  Go iterates the property map in an unspecified
order; the claims proved below do not depend on the order. -/
structure Page where
  createdTime : Option String
  lastEditedTime : Option String
  properties : List (String × PageProperty)

/-- Go extractPropertyValue (renderer.go). -/
def extractPropertyValue (prop : PageProperty) : Option MetaValue :=
  match prop with
  | .title (t :: _) => some (.str t.plainText)
  | .title [] => none
  | .richTextProp (t :: _) => some (.str t.plainText)
  | .richTextProp [] => none
  | .date (some d) => some (.str d)
  | .date none => none
  | .select name => some (.str name)
  | .multiSelect names => some (.strList names)
  | .status name => some (.str name)
  | .other => none

/-- Map update of the Go property map, as an association list: replace
the binding when the key is present, append it otherwise. -/
def mapSet (l : List (String × MetaValue)) (k : String) (v : MetaValue) :
    List (String × MetaValue) :=
  match l with
  | [] => [(k, v)]
  | (k', v') :: rest => if k' = k then (k, v) :: rest else (k', v') :: mapSet rest k v

/-- Map lookup of the Go property map. -/
def mapGet (l : List (String × MetaValue)) (k : String) : Option MetaValue :=
  (l.find? (fun kv => kv.1 == k)).map (fun kv => kv.2)

/-- The metadata struct of renderer.go: the fields used by the
front-matter, path and filename logic. -/
structure Metadata where
  title : String
  slug : String
  pathType : String
  properties : List (String × MetaValue)

/-- One iteration of the property loop of parseMetadata (renderer.go). -/
def procProp (m : Metadata) (kv : String × PageProperty) : Metadata :=
  let k := kv.1
  let prop := kv.2
  let lowerKey := goToLower k
  if lowerKey = "title" || lowerKey = "name" then
    match prop with
    | .title (t :: _) =>
      { m with title := t.plainText,
               properties := mapSet m.properties "title" (.str t.plainText) }
    | _ => m
  else if lowerKey = "slug" then
    match extractPropertyValue prop with
    | some (.str s) =>
      if s ≠ "" then { m with slug := s, properties := mapSet m.properties "slug" (.str s) }
      else m
    | _ => m
  else if lowerKey = "date" then
    match prop with
    | .date (some d) => { m with properties := mapSet m.properties "date" (.str d) }
    | _ => m
  else if lowerKey = "type" then
    match extractPropertyValue prop with
    | some (.str s) =>
      if s ≠ "" then
        let m := { m with properties := mapSet m.properties "type" (.str s) }
        if goContains s ":" then
          let parts := goSplitN2 ':' s
          let pathCategory := goToLower (goTrimSpace parts.1)
          let typeValue := goTrimSpace parts.2
          if pathCategory = "pages" then
            { m with pathType := "pages",
                     properties := mapSet m.properties "type" (.str typeValue) }
          else { m with pathType := goToLower s }
        else
          let lowerType := goToLower s
          if lowerType = "post" then
            { m with pathType := "posts",
                     properties := mapSet m.properties "type" (.str "posts") }
          else { m with pathType := lowerType }
      else m
    | _ => m
  else if lowerKey = "status" then
    match prop with
    | .status statusName =>
      let m := { m with properties := mapSet m.properties "status" (.str statusName) }
      if goToLower statusName = "draft" then
        { m with properties := mapSet m.properties "draft" (.boolean true) }
      else m
    | _ => m
  else
    match extractPropertyValue prop with
    | some v => { m with properties := mapSet m.properties k v }
    | none => m

/-- The state of parseMetadata before its property loop: the default
title and the default date and lastmod entries seeded from the page
timestamps. -/
def initialMetadata (page : Page) : Metadata :=
  let props : List (String × MetaValue) := []
  let props := match page.createdTime with
    | some d => mapSet props "date" (.str d)
    | none => props
  let props := match page.lastEditedTime with
    | some d => mapSet props "lastmod" (.str d)
    | none => props
  { title := "untitled", slug := "", pathType := "", properties := props }

/-- Go parseMetadata (renderer.go): defaults, the property loop, then
the slug and path-type defaults. -/
def parseMetadata (page : Page) : Metadata :=
  let m := page.properties.foldl procProp (initialMetadata page)
  let slug := if m.slug = "" then m.title else m.slug
  let slug := slugify slug
  let pathType :=
    if m.pathType = "" then
      match mapGet m.properties "type" with
      | some (.str s) => s
      | _ => m.pathType
    else m.pathType
  { m with slug := slug, pathType := pathType }

/-- Go Renderer.GetPagePath (renderer.go). -/
def GetPagePath (page : Page) : String :=
  let m := parseMetadata page
  let safeType := slugify m.pathType
  if safeType = "" then "/posts/" ++ m.slug ++ "/"
  else if safeType = "pages" then "/" ++ m.slug ++ "/"
  else "/" ++ safeType ++ "/" ++ m.slug ++ "/"

/-- Go Renderer.buildFilename (renderer.go). -/
def buildFilename (m : Metadata) : String :=
  let safeType := slugify m.pathType
  if safeType = "" then goPathJoin ["posts", m.slug, "index.md"]
  else if safeType = "pages" then goPathJoin [m.slug, "index.md"]
  else goPathJoin [safeType, m.slug, "index.md"]

/-- Go Renderer.buildFrontMatter (renderer.go), with the YAML marshaller
(gopkg.in/yaml.v3) passed as a parameter. -/
def buildFrontMatter (yamlMarshal : List (String × MetaValue) → String)
    (m : Metadata) : String :=
  "---\n" ++ yamlMarshal m.properties ++ "---\n\n"

/-- Go Renderer.RenderPage (renderer.go): metadata, filename, the
recursive body render (aborting on the first children-fetch error), then
front matter plus body. -/
def RenderPage (yamlMarshal : List (String × MetaValue) → String)
    (cacheFile : Option CacheFn) (config : RenderConfig)
    (resolve : Option (String → String)) (page : Page) (blocks : BForest) :
    Except String (String × String) :=
  let meta := parseMetadata page
  let filename := buildFilename meta
  let ctx : RenderCtx := ⟨resolve, cacheFile, filename, config⟩
  match renderBlocksRecursive ctx blocks with
  | Except.error e => Except.error e
  | Except.ok body => Except.ok (filename, buildFrontMatter yamlMarshal meta ++ body)

/-! ### Derived notions used by the statements -/

deriving instance DecidableEq for Except

mutual
/-- The first children-fetch error the renderer would encounter in a
tree: an error recorded at a node whose block declares children (so the
callback is invoked), in depth-first order. -/
def treeFirstErr : BTree → Option String
  | .node b fe kids =>
    if (getBlockIDAndHasChildren b).2 then
      match fe with
      | some e => some e
      | none => forestFirstErr kids
    else none
/-- The first children-fetch error in a sibling list, in order. -/
def forestFirstErr : BForest → Option String
  | .nil => none
  | .cons t ts =>
    match treeFirstErr t with
    | some e => some e
    | none => forestFirstErr ts
end

/-- Conditional wrapping of a string between a left and a right marker;
the building block used to state the annotation nesting order. -/
def wrapIf (b : Bool) (left right w : String) : String :=
  if b then left ++ w ++ right else w

/-- Modelled from the spec words of claim C2: the nesting the claim
asserts, with the bold markers outermost and the underline tags
innermost, directly around the text. -/
def specWrapBoldOutermost (a : Annotations) (txt : String) : String :=
  wrapIf a.bold "**" "**" (wrapIf a.italic "*" "*"
    (wrapIf a.strikethrough "~~" "~~" (wrapIf a.underline "<u>" "</u>" txt)))

/-- Modelled from the spec words of claim C3: every square bracket in
the string is immediately preceded by an unconsumed backslash. -/
def bracketsEscaped : List Char → Bool
  | [] => true
  | '\\' :: _ :: rest => bracketsEscaped rest
  | c :: rest => !(c == '[' || c == ']') && bracketsEscaped rest

/-! ### Helper lemmas -/

/-- Rendering a one-element rich-text array: the link branch, the code
branch, or the annotation wrapping written as nested conditional wraps. -/
theorem richTextArr_single (t : RichText) (res : Option (String → String)) :
    richTextArrToMarkdown [t] res =
      (if t.href ≠ "" then
        "[" ++ escapeMarkdown (richTextAnnotationsToMarkdown t) ++ "](" ++
          notionURLToHugoLink t.href res ++ ")"
      else if t.annotations.code then "`" ++ escapeBackticks t.plainText ++ "`"
      else wrapIf t.annotations.underline "<u>" "</u>"
        (wrapIf t.annotations.strikethrough "~~" "~~"
          (wrapIf t.annotations.italic "*" "*"
            (wrapIf t.annotations.bold "**" "**" t.plainText)))) := rfl

/-! ### Claim C2: annotation nesting order -/

/-- Claim C2 as stated is false on the code: a span carrying all four
non-code annotations renders with the underline tags outermost and the
bold markers innermost, not the other way around. -/
theorem claim_C2_counterexample :
    richTextArrToMarkdown [⟨"x", "", ⟨true, true, true, true, false⟩⟩] none =
      "<u>~~***x***~~</u>" ∧
    richTextArrToMarkdown [⟨"x", "", ⟨true, true, true, true, false⟩⟩] none ≠
      specWrapBoldOutermost ⟨true, true, true, true, false⟩ "x" := by
  decide

/-- Claim C2, amended: for every span whose annotations do not include
code, the wrappers nest in the fixed order underline, strikethrough,
italic, bold from outermost to innermost (the code applies bold first,
so the bold markers sit directly around the text), both in
richTextAnnotationsToMarkdown and for a non-linked span in
richTextArrToMarkdown; rendering is a pure function of the span, so
repeated rendering yields the identical string. -/
theorem claim_C2_nesting (t : RichText) (res : Option (String → String))
    (hcode : t.annotations.code = false) :
    richTextAnnotationsToMarkdown t =
      wrapIf t.annotations.underline "<u>" "</u>"
        (wrapIf t.annotations.strikethrough "~~" "~~"
          (wrapIf t.annotations.italic "*" "*"
            (wrapIf t.annotations.bold "**" "**" t.plainText))) ∧
    (t.href = "" →
      richTextArrToMarkdown [t] res =
        wrapIf t.annotations.underline "<u>" "</u>"
          (wrapIf t.annotations.strikethrough "~~" "~~"
            (wrapIf t.annotations.italic "*" "*"
              (wrapIf t.annotations.bold "**" "**" t.plainText)))) ∧
    richTextArrToMarkdown [t] res = richTextArrToMarkdown [t] res := by
  refine ⟨?_, ?_, rfl⟩
  · simp [richTextAnnotationsToMarkdown, hcode, wrapIf]
  · intro h
    rw [richTextArr_single]
    simp [h, hcode]

/-- Witness for claim C2: the nesting theorem applied to a concrete
bold-and-strikethrough span. -/
theorem claim_C2_nesting_witness :
    richTextAnnotationsToMarkdown ⟨"x", "", ⟨true, false, true, false, false⟩⟩ = "~~**x**~~" ∧
    richTextArrToMarkdown [⟨"x", "", ⟨true, false, true, false, false⟩⟩] none = "~~**x**~~" := by
  have h := claim_C2_nesting ⟨"x", "", ⟨true, false, true, false, false⟩⟩ none rfl
  exact ⟨by rw [h.1]; decide, by rw [h.2.1 rfl]; decide⟩

/-! ### Claim C3: bracket escaping -/

/-- Claim C3 as stated is false on the code: a plain span without a
hyperlink is emitted verbatim, so its square brackets are not
backslash-escaped. -/
theorem claim_C3_counterexample :
    richTextArrToMarkdown [⟨"[a]", "", ⟨false, false, false, false, false⟩⟩] none = "[a]" ∧
    bracketsEscaped
      (richTextArrToMarkdown [⟨"[a]", "", ⟨false, false, false, false, false⟩⟩] none).data
      = false := by
  decide

/-- Claim C3, amended: square brackets are backslash-escaped only in the
visible text of spans that carry a hyperlink (and in URL-derived
labels); a plain unannotated span is emitted verbatim; a non-linked span
with the code annotation has only its backticks escaped and receives no
other annotation wrapping; a linked span renders as a Markdown link
around its escaped, annotation-wrapped text. -/
theorem claim_C3_escaping (txt href : String) (ann : Annotations)
    (res : Option (String → String)) :
    richTextArrToMarkdown [⟨txt, "", ⟨false, false, false, false, false⟩⟩] res = txt ∧
    (ann.code = true →
      richTextArrToMarkdown [⟨txt, "", ann⟩] res = "`" ++ escapeBackticks txt ++ "`") ∧
    (href ≠ "" →
      richTextArrToMarkdown [⟨txt, href, ann⟩] res =
        "[" ++ escapeMarkdown (richTextAnnotationsToMarkdown ⟨txt, href, ann⟩) ++ "](" ++
          notionURLToHugoLink href res ++ ")") := by
  refine ⟨rfl, ?_, ?_⟩
  · intro h
    rw [richTextArr_single]
    simp [h]
  · intro h
    rw [richTextArr_single]
    simp [h]

/-- Witness for claim C3: the escaping theorem applied to a concrete
text, a concrete code span and a concrete linked span. -/
theorem claim_C3_escaping_witness :
    richTextArrToMarkdown [⟨"[a]", "", ⟨false, false, false, false, false⟩⟩] none = "[a]" ∧
    richTextArrToMarkdown [⟨"a`b", "", ⟨true, false, false, false, true⟩⟩] none = "`a\\`b`" ∧
    richTextArrToMarkdown [⟨"t[x]", "https://example.com/", ⟨false, false, false, false, false⟩⟩]
        none =
      "[t\\[x\\]](https://example.com/)" := by
  have h1 := (claim_C3_escaping "[a]" "" ⟨false, false, false, false, false⟩ none).1
  have h2 := (claim_C3_escaping "a`b" "" ⟨true, false, false, false, true⟩ none).2.1 rfl
  have h3 := (claim_C3_escaping "t[x]" "https://example.com/"
    ⟨false, false, false, false, false⟩ none).2.2 (by decide)
  exact ⟨h1, by rw [h2]; decide, by rw [h3]; decide⟩

/-! ### Claim C10: PDF and link-preview blocks never fetch children -/

/-- Claim C10: PDF and link-preview blocks are absent from the
children-fetch type switch, so the renderer never consults the
children-fetch callback for them (the recorded callback answer, error or
not, is ignored) and always formats them with empty child content, even
when the has-children flag is set. -/
theorem claim_C10_no_fetch (ctx : RenderCtx) (id url : String) (hc : Bool)
    (f e : Option String) (cap : List RichText) (fe : Option String) (kids : BForest) :
    renderBlock ctx (.node (.pdf id hc f e cap) fe kids) =
      Except.ok (goTrimRightNl
        (fileLikeToMarkdownWithCache f e cap ctx.cacheFile ctx.articlePath
          ctx.config.pdfTemplate), false) ∧
    renderBlock ctx (.node (.linkPreview id hc url) fe kids) =
      Except.ok (goTrimRightNl
        ("[" ++ escapeMarkdown (shortenURLLabel url) ++ "](" ++ url ++ ")"), false) :=
  ⟨rfl, rfl⟩

/-! ### Claim C6: cache filename stability under re-signing -/

/-- Claim C6: two URLs that agree on host and path and differ only in
their query (the transient signing parameters) generate the identical
cache filename, for every digest function.  The side condition covers
the extension heuristic: either the path carries an extension, or the
two URLs agree on the three substring probes; genuine X-Amz signing
values (timestamps and hexadecimal digests) cannot make the probes
disagree. -/
theorem claim_C6_cache_stable (sha256hex : String → String) (u1 u2 : String)
    (p1 p2 : GoURL) (hp1 : urlParse u1 = some p1) (hp2 : urlParse u2 = some p2)
    (hhost : p1.host = p2.host) (hpath : p1.path = p2.path)
    (hext : goFilepathExt p1.path ≠ "" ∨
      (goContains u1 "image" = goContains u2 "image" ∧
       goContains u1 "video" = goContains u2 "video" ∧
       goContains u1 "pdf" = goContains u2 "pdf")) :
    generateFilename sha256hex u1 = generateFilename sha256hex u2 := by
  have hid : extractFileIdentifier u1 = extractFileIdentifier u2 := by
    unfold extractFileIdentifier
    rw [hp1, hp2]
    dsimp only
    rw [hhost, hpath]
  have hex : extractExtension u1 = extractExtension u2 := by
    unfold extractExtension
    rw [hp1, hp2]
    dsimp only
    rw [hpath]
    rcases hext with h | ⟨h1, h2, h3⟩
    · rw [hpath] at h
      rw [if_neg h, if_neg h]
    · rw [h1, h2, h3]
  unfold generateFilename
  rw [hid, hex]

/-- Witness for claim C6: the stability theorem applied to the same
S3-hosted image URL signed on two different days. -/
theorem claim_C6_cache_stable_witness :
    generateFilename (fun _ => "0123456789abcdef")
      "https://s3.us-west-2.amazonaws.com/secure.notion-static.com/abc123/image.jpg?X-Amz-Algorithm=AWS4-HMAC-SHA256&X-Amz-Date=20230101T000000Z" =
    generateFilename (fun _ => "0123456789abcdef")
      "https://s3.us-west-2.amazonaws.com/secure.notion-static.com/abc123/image.jpg?X-Amz-Algorithm=AWS4-HMAC-SHA256&X-Amz-Date=20230102T000000Z" :=
  claim_C6_cache_stable (fun _ => "0123456789abcdef") _ _
    ⟨"https", "s3.us-west-2.amazonaws.com", "/secure.notion-static.com/abc123/image.jpg",
      "X-Amz-Algorithm=AWS4-HMAC-SHA256&X-Amz-Date=20230101T000000Z"⟩
    ⟨"https", "s3.us-west-2.amazonaws.com", "/secure.notion-static.com/abc123/image.jpg",
      "X-Amz-Algorithm=AWS4-HMAC-SHA256&X-Amz-Date=20230102T000000Z"⟩
    (by decide) (by decide) rfl rfl (Or.inl (by decide))

/-! ### Claim C5: table normalization -/

/-- Every cell count is bounded by the running maximum of the fold. -/
theorem le_foldl_max_start (l : List (List String)) :
    ∀ acc : Nat, acc ≤ l.foldl (fun mx p => max mx p.length) acc := by
  induction l with
  | nil => intro acc; simp
  | cons x xs ih =>
    intro acc
    exact le_trans (Nat.le_max_left acc x.length) (ih (max acc x.length))

/-- Every member row has at most the maximal cell count. -/
theorem mem_le_foldl_max (l : List (List String)) :
    ∀ (acc : Nat) (p : List String), p ∈ l →
      p.length ≤ l.foldl (fun mx q => max mx q.length) acc := by
  induction l with
  | nil => intro _ _ h; cases h
  | cons x xs ih =>
    intro acc p hp
    rcases List.mem_cons.mp hp with h | h
    · subst h
      exact le_trans (Nat.le_max_right acc p.length) (le_foldl_max_start xs _)
    · exact ih _ p h

/-- Padding a row that is at most the target width yields exactly the
target width. -/
theorem padRow_length (n : Nat) (p : List String) (h : p.length ≤ n) :
    (padRow n p).length = n := by
  unfold padRow
  split
  · simp only [List.length_append, List.length_replicate]
    omega
  · omega

/-- A blank table body parses to no rows. -/
theorem tableParsed_nil_of_blank (cc : String)
    (h : goTrimSpace (dedentChildContent cc) = "") : tableParsed cc = [] := by
  unfold tableParsed
  rw [h]
  rfl

/-- Claim C5: with the column-header flag set and a non-empty parsed
body, the rendered table is the padded first row, then a separator row
of one dash-triple per column, then the remaining padded rows; and every
row, once padded, has exactly the maximal column count. -/
theorem claim_C5_table (cc : String) (r : List String) (rs : List (List String))
    (hparsed : tableParsed cc = r :: rs)
    (hdiff : ∃ p ∈ tableParsed cc, ∃ q ∈ tableParsed cc, p.length ≠ q.length) :
    (∀ p ∈ tableParsed cc,
      (padRow (tableMaxCols (tableParsed cc)) p).length = tableMaxCols (tableParsed cc)) ∧
    tableToMarkdown true cc =
      renderTableRowLine (padRow (tableMaxCols (tableParsed cc)) r) ++ "\n" ++
      renderTableRowLine (List.replicate (tableMaxCols (tableParsed cc)) "---") ++
      (if rs = [] then ""
       else "\n" ++ goJoin (rs.map (fun p =>
         renderTableRowLine (padRow (tableMaxCols (tableParsed cc)) p))) "\n") := by
  constructor
  · intro p hp
    exact padRow_length _ _ (mem_le_foldl_max _ 0 p hp)
  · have hs : goTrimSpace (dedentChildContent cc) ≠ "" := by
      intro h
      rw [tableParsed_nil_of_blank cc h] at hparsed
      exact List.noConfusion hparsed
    unfold tableToMarkdown
    rw [hparsed, if_neg hs, if_neg (List.cons_ne_nil r rs),
      if_pos ⟨rfl, by simp⟩]
    simp only [List.map_cons, List.headD_cons, List.tail_cons, List.length_cons]
    cases rs with
    | nil =>
      simp only [List.map_nil, List.length_nil]
      rw [if_neg (by omega)]
      simp
    | cons r2 rs' =>
      simp only [List.map_cons, List.length_cons]
      rw [if_pos (by omega)]
      simp

/-- Witness for claim C5: the table theorem applied to a header table
whose two rows have three and two cells. -/
theorem claim_C5_table_witness :
    tableToMarkdown true "a | b | c\nd | e" =
      "| a | b | c |\n| --- | --- | --- |\n| d | e |  |" ∧
    ∀ p ∈ tableParsed "a | b | c\nd | e", (padRow 3 p).length = 3 := by
  have h := claim_C5_table "a | b | c\nd | e" ["a", "b", "c"] [["d", "e"]]
    (by decide)
    ⟨["a", "b", "c"], by decide, ["d", "e"], by decide, by decide⟩
  constructor
  · rw [h.2]; decide
  · intro p hp
    have h3 : tableMaxCols (tableParsed "a | b | c\nd | e") = 3 := by decide
    have := h.1 p hp
    rw [h3] at this
    exact this

/-! ### Claim C8: cache failure falls back to the remote URL -/

/-- When the CacheFile effect fails, the extracted URL is the original
remote URL. -/
theorem processFileURL_cache_error (cf : CacheFn) (u ap errMsg : String)
    (extOpt : Option String) (cap : List RichText)
    (hu : u ≠ "") (hap : ap ≠ "") (hcf : cf u ap = Except.error errMsg) :
    (processFileURLWithCache (some u) extOpt cap (some cf) ap).1 = u := by
  simp only [processFileURLWithCache, getFileURL]
  rw [if_neg hu]
  simp [hap, hcf]

/-- Claim C8: for an internally hosted image, file, PDF or video block
whose CacheFile call fails, the block still renders, with the original
remote URL in place of a local path, and the failure does not make the
block render (hence the page render) fail. -/
theorem claim_C8_cache_fallback (cf : CacheFn) (u ap errMsg id : String)
    (extOpt : Option String) (cap : List RichText)
    (res : Option (String → String)) (cfg : RenderConfig)
    (fe : Option String) (kids : BForest)
    (hu : u ≠ "") (hap : ap ≠ "") (hcf : cf u ap = Except.error errMsg) :
    (processFileURLWithCache (some u) extOpt cap (some cf) ap).1 = u ∧
    renderBlock ⟨res, some cf, ap, cfg⟩ (.node (.image id false (some u) extOpt cap) fe kids) =
      Except.ok (goTrimRightNl
        ("![" ++ escapeMarkdown (processFileURLWithCache (some u) extOpt cap (some cf) ap).2 ++
          "](" ++ u ++ ")"), false) ∧
    renderBlock ⟨res, some cf, ap, cfg⟩ (.node (.file id false (some u) extOpt cap) fe kids) =
      Except.ok (goTrimRightNl
        (renderTemplate cfg.fileTemplate
          [("URL", u), ("Text", (processFileURLWithCache (some u) extOpt cap (some cf) ap).2)]),
        false) ∧
    renderBlock ⟨res, some cf, ap, cfg⟩ (.node (.pdf id true (some u) extOpt cap) fe kids) =
      Except.ok (goTrimRightNl
        (renderTemplate cfg.pdfTemplate
          [("URL", u), ("Text", (processFileURLWithCache (some u) extOpt cap (some cf) ap).2)]),
        false) ∧
    renderBlock ⟨res, some cf, ap, cfg⟩ (.node (.video id false (some u) extOpt cap) fe kids) =
      Except.ok (goTrimRightNl
        (renderTemplate cfg.videoTemplate
          [("URL", u), ("Text", (processFileURLWithCache (some u) extOpt cap (some cf) ap).2)]),
        false) := by
  have hp1 := processFileURL_cache_error cf u ap errMsg extOpt cap hu hap hcf
  refine ⟨hp1, ?_, ?_, ?_, ?_⟩
  · show Except.ok (goTrimRightNl (imageToMarkdownWithCache (some u) extOpt cap (some cf) ap),
      false) = _
    simp only [imageToMarkdownWithCache, hp1]
    rw [if_neg hu]
  · show Except.ok (goTrimRightNl (fileLikeToMarkdownWithCache (some u) extOpt cap (some cf) ap
      cfg.fileTemplate), false) = _
    simp only [fileLikeToMarkdownWithCache, hp1]
    rw [if_neg hu]
  · show Except.ok (goTrimRightNl (fileLikeToMarkdownWithCache (some u) extOpt cap (some cf) ap
      cfg.pdfTemplate), false) = _
    simp only [fileLikeToMarkdownWithCache, hp1]
    rw [if_neg hu]
  · show Except.ok (goTrimRightNl (fileLikeToMarkdownWithCache (some u) extOpt cap (some cf) ap
      cfg.videoTemplate), false) = _
    simp only [fileLikeToMarkdownWithCache, hp1]
    rw [if_neg hu]

/-- Witness for claim C8: the fallback theorem applied to a concrete
always-failing cache. -/
theorem claim_C8_cache_fallback_witness :
    (processFileURLWithCache (some "https://x.amazonaws.com/f.png") none
      [⟨"cap", "", ⟨false, false, false, false, false⟩⟩]
      (some (fun _ _ => Except.error "HTTP 403")) "p/index.md").1 =
      "https://x.amazonaws.com/f.png" ∧
    renderBlock ⟨none, some (fun _ _ => Except.error "HTTP 403"), "p/index.md",
        ⟨"", "", "", "", "", "", ""⟩⟩
      (.node (.image "i" false (some "https://x.amazonaws.com/f.png") none
        [⟨"cap", "", ⟨false, false, false, false, false⟩⟩]) none .nil) =
      Except.ok ("![cap](https://x.amazonaws.com/f.png)", false) := by
  have h := claim_C8_cache_fallback (fun _ _ => Except.error "HTTP 403")
    "https://x.amazonaws.com/f.png" "p/index.md" "HTTP 403" "i" none
    [⟨"cap", "", ⟨false, false, false, false, false⟩⟩] none
    ⟨"", "", "", "", "", "", ""⟩ none .nil
    (by decide) (by decide) rfl
  refine ⟨h.1, ?_⟩
  rw [h.2.1]
  decide

/-! ### Claim C4: list-aware spacing between siblings -/

/-- Left identity of string concatenation. -/
theorem str_nil_append (s : String) : "" ++ s = s := rfl

/-- dropWhile is idempotent. -/
theorem dropWhile_idem (p : Char → Bool) (l : List Char) :
    (l.dropWhile p).dropWhile p = l.dropWhile p := by
  induction l with
  | nil => simp
  | cons x xs ih =>
    by_cases h : p x
    · simp [List.dropWhile, h, ih]
    · simp [List.dropWhile, h]

/-- Trimming trailing newlines is idempotent. -/
theorem goTrimRightNl_idem (s : String) :
    goTrimRightNl (goTrimRightNl s) = goTrimRightNl s := by
  simp [goTrimRightNl, trimTrailCh, dropWhile_idem]

/-- Joining a newline split restores the string. -/
theorem goJoin_goSplitCh_nl (s : String) : goJoin (goSplitCh '\n' s) "\n" = s := by
  show String.mk (List.intercalate ['\n'] (((s.data.splitOn '\n').map String.mk).map String.data))
    = s
  rw [List.map_map]
  show String.mk (List.intercalate ['\n'] ((s.data.splitOn '\n').map id)) = s
  rw [List.map_id, List.intercalate_splitOn]

/-- With no indentation the per-child line treatment only trims trailing
newlines. -/
theorem indentNonBlankLines_empty (s : String) :
    indentNonBlankLines "" s = goTrimRightNl s := by
  unfold indentNonBlankLines
  have hf : (fun l => if goTrimSpace l = "" then l else "" ++ l) = (id : String → String) := by
    funext l
    split <;> rfl
  rw [hf, List.map_id, goJoin_goSplitCh_nl]

/-- Every fragment renderBlock returns carries no trailing newline. -/
theorem renderBlock_ok_trimmed (ctx : RenderCtx) (t : BTree) (r : String × Bool)
    (h : renderBlock ctx t = Except.ok r) : goTrimRightNl r.1 = r.1 := by
  cases t with
  | node b fe kids =>
    rw [renderBlock.eq_def] at h
    dsimp only at h
    split at h
    · cases fe with
      | some e => exact absurd h (by simp)
      | none =>
        cases hl : renderChildrenLoop ctx b kids "" false with
        | error e =>
          rw [hl] at h
          exact absurd h (by simp)
        | ok cc =>
          rw [hl] at h
          simp only [Except.ok.injEq] at h
          rw [← h]
          exact goTrimRightNl_idem _
    · simp only [Except.ok.injEq] at h
      rw [← h]
      exact goTrimRightNl_idem _

/-- Claim C4: two sibling fragments, both non-blank, are joined with a
single newline when both blocks are list-like and with a blank line
otherwise, both at the top level and inside the child loop of a parent
that applies no indentation and is not a column list. -/
theorem claim_C4_spacing (ctx : RenderCtx) (t1 t2 : BTree) (s1 s2 : String) (l1 l2 : Bool)
    (h1 : renderBlock ctx t1 = Except.ok (s1, l1))
    (h2 : renderBlock ctx t2 = Except.ok (s2, l2))
    (hs1 : s1 ≠ "") (hs2 : s2 ≠ "") :
    renderBlocksLoop ctx (.cons t1 (.cons t2 .nil)) "" false =
      Except.ok (s1 ++ (if l1 && l2 then "\n" else "\n\n") ++ s2) ∧
    (∀ parent : Block, indentFor parent = "" → isColumnListBlock parent = false →
      renderChildrenLoop ctx parent (.cons t1 (.cons t2 .nil)) "" false =
        Except.ok (s1 ++ (if l1 && l2 then "\n" else "\n\n") ++ s2)) := by
  constructor
  · rw [renderBlocksLoop, h1]
    dsimp only
    rw [if_neg (by simp)]
    rw [renderBlocksLoop, h2]
    rw [str_nil_append]
    dsimp only
    rw [if_pos hs1, renderBlocksLoop]
    cases l1 <;> cases l2 <;> simp [String.append_assoc]
  · intro parent hind hcol
    have ht1 : indentNonBlankLines (indentFor parent) s1 = s1 := by
      rw [hind, indentNonBlankLines_empty]
      exact renderBlock_ok_trimmed ctx t1 (s1, l1) h1
    have ht2 : indentNonBlankLines (indentFor parent) s2 = s2 := by
      rw [hind, indentNonBlankLines_empty]
      exact renderBlock_ok_trimmed ctx t2 (s2, l2) h2
    simp only [renderChildrenLoop, h1, h2, ht1, ht2, hcol, Bool.false_eq_true, if_false,
      reduceIte, hs1]

/-- Witness for claim C4: the spacing theorem applied to two concrete
bulleted items and to a paragraph followed by a bulleted item. -/
theorem claim_C4_spacing_witness :
    renderBlocksLoop ⟨none, none, "p/index.md", ⟨"", "", "", "", "", "", ""⟩⟩
      (.cons (.node (.bulletedListItem "a" false [⟨"a", "", ⟨false, false, false, false, false⟩⟩])
          none .nil)
        (.cons (.node (.bulletedListItem "b" false
            [⟨"b", "", ⟨false, false, false, false, false⟩⟩]) none .nil) .nil)) "" false =
      Except.ok "- a\n- b" ∧
    renderBlocksLoop ⟨none, none, "p/index.md", ⟨"", "", "", "", "", "", ""⟩⟩
      (.cons (.node (.paragraph "a" false [⟨"a", "", ⟨false, false, false, false, false⟩⟩])
          none .nil)
        (.cons (.node (.bulletedListItem "b" false
            [⟨"b", "", ⟨false, false, false, false, false⟩⟩]) none .nil) .nil)) "" false =
      Except.ok "a\n\n- b" := by
  constructor
  · have h := (claim_C4_spacing ⟨none, none, "p/index.md", ⟨"", "", "", "", "", "", ""⟩⟩
      (.node (.bulletedListItem "a" false [⟨"a", "", ⟨false, false, false, false, false⟩⟩])
        none .nil)
      (.node (.bulletedListItem "b" false [⟨"b", "", ⟨false, false, false, false, false⟩⟩])
        none .nil)
      "- a" "- b" true true rfl rfl (by decide) (by decide)).1
    rw [h]
    decide
  · have h := (claim_C4_spacing ⟨none, none, "p/index.md", ⟨"", "", "", "", "", "", ""⟩⟩
      (.node (.paragraph "a" false [⟨"a", "", ⟨false, false, false, false, false⟩⟩]) none .nil)
      (.node (.bulletedListItem "b" false [⟨"b", "", ⟨false, false, false, false, false⟩⟩])
        none .nil)
      "a" "- b" false true rfl rfl (by decide) (by decide)).1
    rw [h]
    decide

/-! ### Claim C7: children-fetch errors abort the page render -/

/-- The child loop succeeds exactly when no consulted node of the
sibling trees records a fetch error, and otherwise returns the first
recorded error. -/
theorem renderErr_forest (ctx : RenderCtx) (ts : BForest) :
    ∀ (parent : Block) (cc : String) (pl : Bool),
      (forestFirstErr ts = none →
        ∃ s, renderChildrenLoop ctx parent ts cc pl = Except.ok s) ∧
      (∀ e, forestFirstErr ts = some e →
        renderChildrenLoop ctx parent ts cc pl = Except.error e) := by
  refine BForest.rec (motive_1 := fun t =>
      (treeFirstErr t = none → ∃ r, renderBlock ctx t = Except.ok r) ∧
      (∀ e, treeFirstErr t = some e → renderBlock ctx t = Except.error e))
    (motive_2 := fun ts => ∀ (parent : Block) (cc : String) (pl : Bool),
      (forestFirstErr ts = none →
        ∃ s, renderChildrenLoop ctx parent ts cc pl = Except.ok s) ∧
      (∀ e, forestFirstErr ts = some e →
        renderChildrenLoop ctx parent ts cc pl = Except.error e))
    ?_ ?_ ?_ ts
  · -- node
    intro b fe kids ih
    constructor
    · intro hnone
      rw [treeFirstErr.eq_def] at hnone
      dsimp only at hnone
      rw [renderBlock.eq_def]
      dsimp only
      by_cases hflag : (getBlockIDAndHasChildren b).2 = true
      · rw [if_pos hflag] at hnone
        rw [if_pos hflag]
        cases fe with
        | some e => exact absurd hnone (by simp)
        | none =>
          obtain ⟨s, hs⟩ := (ih b "" false).1 hnone
          rw [hs]
          exact ⟨_, rfl⟩
      · rw [if_neg hflag]
        exact ⟨_, rfl⟩
    · intro e he
      rw [treeFirstErr.eq_def] at he
      dsimp only at he
      rw [renderBlock.eq_def]
      dsimp only
      by_cases hflag : (getBlockIDAndHasChildren b).2 = true
      · rw [if_pos hflag] at he
        rw [if_pos hflag]
        cases fe with
        | some e' =>
          simp only [Option.some.injEq] at he
          rw [he]
        | none =>
          rw [(ih b "" false).2 e he]
      · rw [if_neg hflag] at he
        exact absurd he (by simp)
  · -- nil
    intro parent cc pl
    exact ⟨fun _ => ⟨cc, rfl⟩, fun e he => absurd he (by simp [forestFirstErr])⟩
  · -- cons
    intro t ts iht ihts parent cc pl
    constructor
    · intro hnone
      rw [forestFirstErr.eq_def] at hnone
      dsimp only at hnone
      cases hte : treeFirstErr t with
      | some e =>
        rw [hte] at hnone
        exact absurd hnone (by simp)
      | none =>
        rw [hte] at hnone
        dsimp only at hnone
        obtain ⟨r, hr⟩ := iht.1 hte
        rw [renderChildrenLoop, hr]
        exact (ihts _ _ _).1 hnone
    · intro e he
      rw [forestFirstErr.eq_def] at he
      dsimp only at he
      cases hte : treeFirstErr t with
      | some e' =>
        rw [hte] at he
        simp only [Option.some.injEq] at he
        rw [renderChildrenLoop, iht.2 e' hte, he]
      | none =>
        rw [hte] at he
        dsimp only at he
        obtain ⟨r, hr⟩ := iht.1 hte
        rw [renderChildrenLoop, hr]
        exact (ihts _ _ _).2 e he

/-- A single tree: renderBlock succeeds when no consulted node records a
fetch error, and otherwise returns the first recorded error. -/
theorem renderErr_tree (ctx : RenderCtx) (t : BTree) :
    (treeFirstErr t = none → ∃ r, renderBlock ctx t = Except.ok r) ∧
    (∀ e, treeFirstErr t = some e → renderBlock ctx t = Except.error e) := by
  cases t with
  | node b fe kids =>
    have ih := renderErr_forest ctx kids
    constructor
    · intro hnone
      rw [treeFirstErr.eq_def] at hnone
      dsimp only at hnone
      rw [renderBlock.eq_def]
      dsimp only
      by_cases hflag : (getBlockIDAndHasChildren b).2 = true
      · rw [if_pos hflag] at hnone
        rw [if_pos hflag]
        cases fe with
        | some e => exact absurd hnone (by simp)
        | none =>
          obtain ⟨s, hs⟩ := (ih b "" false).1 hnone
          rw [hs]
          exact ⟨_, rfl⟩
      · rw [if_neg hflag]
        exact ⟨_, rfl⟩
    · intro e he
      rw [treeFirstErr.eq_def] at he
      dsimp only at he
      rw [renderBlock.eq_def]
      dsimp only
      by_cases hflag : (getBlockIDAndHasChildren b).2 = true
      · rw [if_pos hflag] at he
        rw [if_pos hflag]
        cases fe with
        | some e' =>
          simp only [Option.some.injEq] at he
          rw [he]
        | none =>
          rw [(ih b "" false).2 e he]
      · rw [if_neg hflag] at he
        exact absurd he (by simp)

/-- The top-level loop propagates the first fetch error of the block
list. -/
theorem renderBlocksLoop_err (ctx : RenderCtx) (ts : BForest) :
    ∀ (md : String) (pl : Bool) (e : String), forestFirstErr ts = some e →
      renderBlocksLoop ctx ts md pl = Except.error e := by
  refine BForest.rec (motive_1 := fun _ => True)
    (motive_2 := fun ts => ∀ (md : String) (pl : Bool) (e : String),
      forestFirstErr ts = some e → renderBlocksLoop ctx ts md pl = Except.error e)
    (fun _ _ _ _ => trivial) ?_ ?_ ts
  · intro md pl e he
    exact absurd he (by simp [forestFirstErr])
  · intro t ts _ ih md pl e he
    rw [forestFirstErr.eq_def] at he
    dsimp only at he
    cases hte : treeFirstErr t with
    | some e' =>
      rw [hte] at he
      simp only [Option.some.injEq] at he
      rw [renderBlocksLoop, (renderErr_tree ctx t).2 e' hte, he]
    | none =>
      rw [hte] at he
      dsimp only at he
      obtain ⟨r, hr⟩ := (renderErr_tree ctx t).1 hte
      rw [renderBlocksLoop, hr]
      exact ih _ _ e he

/-- Claim C7: when the children-fetch callback fails at any consulted
block of the page tree, RenderPage aborts and returns that error,
producing neither a filename nor content (the error result carries no
payload). -/
theorem claim_C7_fetch_error (yamlMarshal : List (String × MetaValue) → String)
    (cacheFile : Option CacheFn) (config : RenderConfig)
    (resolve : Option (String → String)) (page : Page) (blocks : BForest) (e : String)
    (h : forestFirstErr blocks = some e) :
    RenderPage yamlMarshal cacheFile config resolve page blocks = Except.error e := by
  unfold RenderPage renderBlocksRecursive
  dsimp only
  rw [renderBlocksLoop_err _ blocks "" false e h]

/-- Witness for claim C7: the abort theorem applied to a page whose only
top-level block declares children and whose fetch callback fails. -/
theorem claim_C7_fetch_error_witness :
    RenderPage (fun _ => "") none ⟨"", "", "", "", "", "", ""⟩ none
      ⟨none, none, []⟩
      (.cons (.node (.paragraph "i" true []) (some "network down") .nil) .nil) =
      Except.error "network down" :=
  claim_C7_fetch_error (fun _ => "") none ⟨"", "", "", "", "", "", ""⟩ none
    ⟨none, none, []⟩
    (.cons (.node (.paragraph "i" true []) (some "network down") .nil) .nil)
    "network down" (by decide)

/-! ### Claim C9: resolver-miss fallback for Notion links -/

/-- A single-character split is never empty. -/
theorem goSplitCh_ne_nil (c : Char) (s : String) : goSplitCh c s ≠ [] := by
  unfold goSplitCh
  intro h
  rw [List.map_eq_nil_iff] at h
  exact List.splitOnP_ne_nil _ _ h

/-- Claim C9 as stated is false on the code: for a notion.so URL whose
last path segment is a bare 32-hex identifier (no title fragment), the
fallback link is /posts/{identifier}/, not the bare normalized
identifier. -/
theorem claim_C9_counterexample :
    notionURLToHugoLink "https://www.notion.so/0123456789abcdef0123456789abcdef"
      (some (fun _ => "")) = "/posts/0123456789abcdef0123456789abcdef/" ∧
    notionURLToHugoLink "https://www.notion.so/0123456789abcdef0123456789abcdef"
      (some (fun _ => "")) ≠ "0123456789abcdef0123456789abcdef" := by
  decide

/-- Claim C9, amended: for every notion.so URL whose last path segment
ends in a recognizable identifier, when the resolver returns the empty
string the resolved link always has the form /posts/{slug}/; the slug is
the slugified (hyphens read as spaces) title fragment when one remains
and its slug is non-empty, and otherwise is derived from the last path
segment or the normalized identifier — the bare identifier is never
returned as the whole link. -/
theorem claim_C9_link_fallback (raw : String) (f : String → String) (p : GoURL)
    (uuidStr titlePart : String)
    (hraw : raw ≠ "")
    (hp : urlParse raw = some p)
    (hhost : p.host ≠ "")
    (hnotion : goContains p.host "notion.so" = true)
    (huuid : uuidFromSegment ((goSplitCh '/' (goTrimCh '/' p.path)).getLastD "") =
      some (uuidStr, titlePart))
    (hres : f (goReplaceAll uuidStr "-" "") = "") :
    ∃ slug', notionURLToHugoLink raw (some f) = "/posts/" ++ slug' ++ "/" ∧
      (titlePart ≠ "" → slugify (goReplaceAll titlePart "-" " ") ≠ "" →
        slug' = slugify (goReplaceAll titlePart "-" " ")) := by
  unfold notionURLToHugoLink
  rw [if_neg hraw, hp]
  dsimp only
  rw [if_neg hhost, hnotion]
  rw [if_neg (by simp)]
  rw [if_neg (goSplitCh_ne_nil '/' (goTrimCh '/' p.path))]
  rw [huuid]
  dsimp only
  rw [hres]
  rw [if_neg (by simp)]
  refine ⟨_, rfl, ?_⟩
  intro ht hslug
  rw [if_neg ht, if_neg hslug]

/-- Witness for claim C9: the fallback theorem applied to a titled
notion.so URL with an always-empty resolver. -/
theorem claim_C9_link_fallback_witness :
    ∃ slug', notionURLToHugoLink
        "https://www.notion.so/My-Page-0123456789abcdef0123456789abcdef"
        (some (fun _ => "")) = "/posts/" ++ slug' ++ "/" ∧
      ("My-Page" ≠ "" → slugify (goReplaceAll "My-Page" "-" " ") ≠ "" →
        slug' = slugify (goReplaceAll "My-Page" "-" " ")) :=
  claim_C9_link_fallback "https://www.notion.so/My-Page-0123456789abcdef0123456789abcdef"
    (fun _ => "")
    ⟨"https", "www.notion.so", "/My-Page-0123456789abcdef0123456789abcdef", ""⟩
    "0123456789abcdef0123456789abcdef" "My-Page"
    (by decide) (by decide) (by decide) (by decide) (by decide) rfl

/-! ### Claim C1: compound type classification and page paths -/

/-- Lookup after an update at the same key. -/
theorem mapGet_mapSet_self (l : List (String × MetaValue)) (k : String) (v : MetaValue) :
    mapGet (mapSet l k v) k = some v := by
  induction l with
  | nil => simp [mapSet, mapGet]
  | cons kv rest ih =>
    by_cases h : kv.1 = k
    · simp [mapSet, mapGet, h]
    · simp only [mapSet]
      rw [if_neg h]
      simp only [mapGet, List.find?]
      rw [show (kv.1 == k) = false by simp [h]]
      exact ih

/-- Lookup after an update at a different key. -/
theorem mapGet_mapSet_ne (l : List (String × MetaValue)) (k k' : String) (v : MetaValue)
    (h : k' ≠ k) : mapGet (mapSet l k v) k' = mapGet l k' := by
  induction l with
  | nil => simp [mapSet, mapGet, List.find?, show (k == k') = false by simp [Ne.symm h]]
  | cons kv rest ih =>
    by_cases hkv : kv.1 = k
    · simp only [mapSet]
      rw [if_pos hkv]
      simp only [mapGet, List.find?]
      rw [show (k == k') = false by simp [Ne.symm h],
        show (kv.1 == k') = false by simp [hkv, Ne.symm h]]
    · simp only [mapSet]
      rw [if_neg hkv]
      simp only [mapGet, List.find?]
      cases hfind : (kv.1 == k')
      · exact ih
      · rfl

/-- The literal key type lowercases to itself. -/
theorem toLower_type_of_eq (k : String) (h : k = "type") : goToLower k = "type" := by
  subst h
  rfl

/-- A property whose key does not lowercase to type leaves the path type
unchanged. -/
theorem procProp_pathType_ne (m : Metadata) (k : String) (prop : PageProperty)
    (h : goToLower k ≠ "type") : (procProp m (k, prop)).pathType = m.pathType := by
  rcases prop with spans | spans | start | name | names | name | _ <;>
    [rcases spans with _ | ⟨t, ts⟩; rcases spans with _ | ⟨t, ts⟩;
     rcases start with _ | d; skip; skip; skip; skip] <;>
  · unfold procProp
    dsimp only [extractPropertyValue]
    split_ifs <;> rfl

/-- A property whose key does not lowercase to type leaves the stored
type entry unchanged. -/
theorem procProp_typeGet_ne (m : Metadata) (k : String) (prop : PageProperty)
    (h : goToLower k ≠ "type") :
    mapGet (procProp m (k, prop)).properties "type" = mapGet m.properties "type" := by
  have hk : "type" ≠ k := fun he => h (toLower_type_of_eq k he.symm)
  rcases prop with spans | spans | start | name | names | name | _ <;>
    [rcases spans with _ | ⟨t, ts⟩; rcases spans with _ | ⟨t, ts⟩;
     rcases start with _ | d; skip; skip; skip; skip] <;>
  · unfold procProp
    dsimp only [extractPropertyValue]
    split_ifs <;>
      first
      | rfl
      | exact mapGet_mapSet_ne _ _ _ _ (by decide)
      | exact (mapGet_mapSet_ne _ _ _ _ (by decide)).trans (mapGet_mapSet_ne _ _ _ _ (by decide))
      | exact mapGet_mapSet_ne _ _ _ _ hk

/-- The property loop preserves the path type and the stored type entry
over a stretch without type-like keys. -/
theorem foldl_procProp_preserve (l : List (String × PageProperty))
    (h : ∀ kv ∈ l, goToLower kv.1 ≠ "type") (m : Metadata) :
    (l.foldl procProp m).pathType = m.pathType ∧
    mapGet (l.foldl procProp m).properties "type" = mapGet m.properties "type" := by
  induction l generalizing m with
  | nil => exact ⟨rfl, rfl⟩
  | cons kv rest ih =>
    have h1 := h kv (List.mem_cons_self kv rest)
    have hrest : ∀ kv ∈ rest, goToLower kv.1 ≠ "type" :=
      fun x hx => h x (List.mem_cons_of_mem kv hx)
    simp only [List.foldl_cons]
    obtain ⟨hp, hg⟩ := ih hrest (procProp m kv)
    exact ⟨hp.trans (procProp_pathType_ne m kv.1 kv.2 h1),
      hg.trans (procProp_typeGet_ne m kv.1 kv.2 h1)⟩

/-- The type step for the compound value pages:friends: the path
category becomes pages and the stored type becomes the display value. -/
theorem procProp_type_pagesFriends (m : Metadata) (k : String) (v : PageProperty)
    (hk : goToLower k = "type") (hv : extractPropertyValue v = some (.str "pages:friends")) :
    (procProp m (k, v)).pathType = "pages" ∧
    mapGet (procProp m (k, v)).properties "type" = some (.str "friends") := by
  unfold procProp
  dsimp only
  rw [hk, hv]
  rw [if_neg (by decide), if_neg (by decide), if_neg (by decide), if_pos (by decide)]
  dsimp only
  rw [if_pos (by decide), if_pos (by decide), if_pos (by decide)]
  exact ⟨rfl, by rw [mapGet_mapSet_self]; decide⟩

/-- The type step for the compound value docs:guides: the path category
is the full lowercased string and the stored type stays verbatim. -/
theorem procProp_type_docsGuides (m : Metadata) (k : String) (v : PageProperty)
    (hk : goToLower k = "type") (hv : extractPropertyValue v = some (.str "docs:guides")) :
    (procProp m (k, v)).pathType = "docs:guides" ∧
    mapGet (procProp m (k, v)).properties "type" = some (.str "docs:guides") := by
  unfold procProp
  dsimp only
  rw [hk, hv]
  rw [if_neg (by decide), if_neg (by decide), if_neg (by decide), if_pos (by decide)]
  dsimp only
  rw [if_pos (by decide), if_pos (by decide), if_neg (by decide)]
  exact ⟨rfl, by rw [mapGet_mapSet_self]⟩

/-- Assembly: a page with one type-like property, followed only by
non-type-like properties, gets the path type and stored type entry the
type step produces. -/
theorem parseMetadata_with_type (page : Page) (pre post : List (String × PageProperty))
    (k : String) (v : PageProperty) (pt : String) (d : MetaValue)
    (hsplit : page.properties = pre ++ (k, v) :: post)
    (hpost : ∀ kv ∈ post, goToLower kv.1 ≠ "type")
    (hstep : ∀ m : Metadata, (procProp m (k, v)).pathType = pt ∧
      mapGet (procProp m (k, v)).properties "type" = some d)
    (hpt : pt ≠ "") :
    (parseMetadata page).pathType = pt ∧
    mapGet (parseMetadata page).properties "type" = some d := by
  unfold parseMetadata
  dsimp only
  rw [hsplit, List.foldl_append, List.foldl_cons]
  obtain ⟨hp, hg⟩ := foldl_procProp_preserve post hpost
    (procProp (pre.foldl procProp (initialMetadata page)) (k, v))
  obtain ⟨hsp, hsg⟩ := hstep (pre.foldl procProp (initialMetadata page))
  constructor
  · rw [hp, hsp, if_neg hpt]
  · rw [hg, hsg]

/-- Claim C1 as stated is false on the code: the path for the compound
type docs:guides is /docsguides/{slug}/, because the path builder
slugifies the classification and slugify strips the colon; the claimed
path /docs:guides/{slug}/ is not produced (the front-matter type is
docs:guides verbatim, as claimed). -/
theorem claim_C1_counterexample :
    GetPagePath ⟨none, none, [("Type", .select "docs:guides")]⟩ = "/docsguides/untitled/" ∧
    GetPagePath ⟨none, none, [("Type", .select "docs:guides")]⟩ ≠ "/docs:guides/untitled/" ∧
    mapGet (parseMetadata ⟨none, none, [("Type", .select "docs:guides")]⟩).properties "type" =
      some (.str "docs:guides") := by
  decide

/-- Claim C1, amended: for every page whose unique type-like property is
pages:friends, the stored front-matter type is friends and the output
path is /{slug}/; for every page whose unique type-like property is
docs:guides, the stored front-matter type is docs:guides verbatim and
the output path is /docsguides/{slug}/ (the compound form is not split,
but the path applies slugify to it, which strips the colon). -/
theorem claim_C1_compound_type (p q : Page)
    (pre1 post1 pre2 post2 : List (String × PageProperty))
    (k1 k2 : String) (v1 v2 : PageProperty)
    (hsplit1 : p.properties = pre1 ++ (k1, v1) :: post1)
    (hk1 : goToLower k1 = "type")
    (hv1 : extractPropertyValue v1 = some (.str "pages:friends"))
    (hpost1 : ∀ kv ∈ post1, goToLower kv.1 ≠ "type")
    (hsplit2 : q.properties = pre2 ++ (k2, v2) :: post2)
    (hk2 : goToLower k2 = "type")
    (hv2 : extractPropertyValue v2 = some (.str "docs:guides"))
    (hpost2 : ∀ kv ∈ post2, goToLower kv.1 ≠ "type") :
    mapGet (parseMetadata p).properties "type" = some (.str "friends") ∧
    GetPagePath p = "/" ++ (parseMetadata p).slug ++ "/" ∧
    mapGet (parseMetadata q).properties "type" = some (.str "docs:guides") ∧
    GetPagePath q = "/docsguides/" ++ (parseMetadata q).slug ++ "/" := by
  obtain ⟨hpt1, hget1⟩ := parseMetadata_with_type p pre1 post1 k1 v1 "pages"
    (.str "friends") hsplit1 hpost1
    (fun m => procProp_type_pagesFriends m k1 v1 hk1 hv1) (by decide)
  obtain ⟨hpt2, hget2⟩ := parseMetadata_with_type q pre2 post2 k2 v2 "docs:guides"
    (.str "docs:guides") hsplit2 hpost2
    (fun m => procProp_type_docsGuides m k2 v2 hk2 hv2) (by decide)
  refine ⟨hget1, ?_, hget2, ?_⟩
  · unfold GetPagePath
    dsimp only
    rw [hpt1, show slugify "pages" = "pages" from by decide]
    rw [if_neg (by decide), if_pos rfl]
  · unfold GetPagePath
    dsimp only
    rw [hpt2, show slugify "docs:guides" = "docsguides" from by decide]
    rw [if_neg (by decide), if_neg (by decide)]
    rfl

/-- Witness for claim C1: the amended theorem applied to two concrete
one-property pages. -/
theorem claim_C1_compound_type_witness :
    mapGet (parseMetadata ⟨none, none, [("Type", .select "pages:friends")]⟩).properties "type" =
      some (.str "friends") ∧
    GetPagePath ⟨none, none, [("Type", .select "pages:friends")]⟩ =
      "/" ++ (parseMetadata ⟨none, none, [("Type", .select "pages:friends")]⟩).slug ++ "/" ∧
    mapGet (parseMetadata ⟨none, none, [("Type", .select "docs:guides")]⟩).properties "type" =
      some (.str "docs:guides") ∧
    GetPagePath ⟨none, none, [("Type", .select "docs:guides")]⟩ =
      "/docsguides/" ++ (parseMetadata ⟨none, none, [("Type", .select "docs:guides")]⟩).slug ++
        "/" :=
  claim_C1_compound_type ⟨none, none, [("Type", .select "pages:friends")]⟩
    ⟨none, none, [("Type", .select "docs:guides")]⟩
    [] [] [] [] "Type" "Type" (.select "pages:friends") (.select "docs:guides")
    rfl (by decide) (by decide) (by intro kv hkv; cases hkv)
    rfl (by decide) (by decide) (by intro kv hkv; cases hkv)

end NotionMD
